import Mathlib

/-!
Verification development for the transformation-stack library
(`jax/_src/linear_util.py`): a shallow embedding of the `Store` /
`EqualStore` slots, the `WrappedFun` transformation stack with its
`call_wrapped` apply/unwind protocol, the memoization decorator, and
the `merge_linear_aux` helper, together with theorems settling the
specification claims against these definitions.
-/

namespace LinearUtil

/-! ## Python dict model

Keyword-argument dictionaries and static-parameter mappings are modelled
as association lists with unique-key update semantics (`dictInsert`
replaces an existing binding in place, otherwise appends).
`pyDictMerge base upd` models the Python expression `dict(base, **upd)`:
build a dict from `base`, then set every binding of `upd` in order, so
bindings of `upd` win on key collision. -/

abbrev Dict (V : Type) := List (String × V)

def dictLookup {V : Type} : Dict V → String → Option V
  | [], _ => none
  | (k0, v) :: rest, k => if k0 = k then some v else dictLookup rest k

def dictInsert {V : Type} : Dict V → String → V → Dict V
  | [], k, v => [(k, v)]
  | (k0, v0) :: rest, k, v =>
    if k0 = k then (k, v) :: rest else (k0, v0) :: dictInsert rest k v

def pyDictMerge {V : Type} (base upd : Dict V) : Dict V :=
  upd.foldl (fun d kv => dictInsert d kv.1 kv.2) base

/-! ## Store and EqualStore

`Store` (source lines 86-111) holds `_val`, initially the empty marker,
modelled as `Option`.  `store` raises `StoreException("Store occupied")`
whenever `_val` is already set, irrespective of the new value.  `val`
raises `StoreException("Store empty")` when never stored.  `EqualStore`
(lines 113-134) wraps a `Store` and tolerates an equal re-store. -/

structure StoreException where
  msg : String
deriving DecidableEq, Repr

structure Store (A : Type) where
  _val : Option A
deriving DecidableEq, Repr

def Store.store {A : Type} (s : Store A) (v : A) : Except StoreException (Store A) :=
  match s._val with
  | some _ => .error ⟨"Store occupied"⟩
  | none => .ok ⟨some v⟩

def Store.val {A : Type} (s : Store A) : Except StoreException A :=
  match s._val with
  | none => .error ⟨"Store empty"⟩
  | some v => .ok v

structure EqualStore (A : Type) where
  _store : Store A
deriving DecidableEq, Repr

def EqualStore.store {A : Type} [DecidableEq A] (s : EqualStore A) (v : A) :
    Except StoreException (EqualStore A) :=
  match s._store.store v with
  | .ok st => .ok ⟨st⟩
  | .error e =>
    match s._store._val with
    | some w => if w = v then .ok s else .error ⟨"Store occupied with not-equal value"⟩
    | none => .error e

def EqualStore.val {A : Type} (s : EqualStore A) : Except StoreException A :=
  s._store.val

/-- An auxiliary-output slot on a `WrappedFun` is either a plain `Store`
(created by `transformation_with_aux` by default) or an `EqualStore`
(`use_eq_store=True`). -/
inductive AuxStore (A : Type) where
  | plain (s : Store A)
  | equal (s : EqualStore A)
deriving DecidableEq, Repr

def AuxStore.store {A : Type} [DecidableEq A] : AuxStore A → A → Except StoreException (AuxStore A)
  | .plain s, v => (s.store v).map .plain
  | .equal s, v => (s.store v).map .equal

def AuxStore.val {A : Type} : AuxStore A → Except StoreException A
  | .plain s => s.val
  | .equal s => s.val

def AuxStore.isEmpty {A : Type} : AuxStore A → Bool
  | .plain s => s._val.isNone
  | .equal s => s._store._val.isNone

/-! ## merge_linear_aux (source lines 382-400)

The two accessors are zero-argument thunks reading a store; reading a
store either yields a value or a `StoreException`, so an accessor is
modelled by its outcome, a `Except StoreException A` value. -/

def merge_linear_aux {A : Type} (aux1 aux2 : Except StoreException A) :
    Except StoreException (Bool × A) :=
  match aux1 with
  | .error _ =>
    match aux2 with
    | .error _ => .error ⟨"neither store occupied"⟩
    | .ok out2 => .ok (false, out2)
  | .ok out1 =>
    match aux2 with
    | .error _ => .ok (true, out1)
    | .ok _ => .error ⟨"both stores occupied"⟩

/-! ## Slot claims -/

/-- Claim C5: for every `EqualStore` and value `v`: `store v` then `store v`
again succeeds as a no-op leaving the held value unchanged, while `store v`
then `store w` with `v ≠ w` fails with the conflicting-value error
("Store occupied with not-equal value"), leaving the originally held value
in place (readable via `val`). -/
theorem equalStore_store_idempotent_conflict {A : Type} [DecidableEq A]
    (v w : A) (hne : v ≠ w) :
    (EqualStore.mk (Store.mk none)).store v = .ok ⟨⟨some v⟩⟩ ∧
    (EqualStore.mk (Store.mk (some v))).store v = .ok ⟨⟨some v⟩⟩ ∧
    (EqualStore.mk (Store.mk (some v))).store w =
      .error ⟨"Store occupied with not-equal value"⟩ ∧
    (EqualStore.mk (Store.mk (some v))).val = .ok v := by
  refine ⟨rfl, ?_, ?_, rfl⟩
  · simp [EqualStore.store, Store.store]
  · simp [EqualStore.store, Store.store, hne]

/-- Witness for C5 at `v = 1`, `w = 2` over `Int`. -/
theorem equalStore_store_idempotent_conflict_witness :
    ((1 : Int) ≠ 2) ∧
    ((EqualStore.mk (Store.mk none)).store (1 : Int) = .ok ⟨⟨some 1⟩⟩ ∧
     (EqualStore.mk (Store.mk (some (1 : Int)))).store 1 = .ok ⟨⟨some 1⟩⟩ ∧
     (EqualStore.mk (Store.mk (some (1 : Int)))).store 2 =
       .error ⟨"Store occupied with not-equal value"⟩ ∧
     (EqualStore.mk (Store.mk (some (1 : Int)))).val = .ok 1) :=
  ⟨by decide, equalStore_store_idempotent_conflict 1 2 (by decide)⟩

/-- Claim C6: for a plain `Store` and values `v1 ≠ v2`: `store v1` succeeds,
a second `store v2` fails with the occupied error ("Store occupied"), and
`val` on a never-stored `Store` fails with the empty error ("Store empty"). -/
theorem store_single_write_and_empty_read {A : Type} (v1 v2 : A) (hne : v1 ≠ v2) :
    (Store.mk (none : Option A)).store v1 = .ok ⟨some v1⟩ ∧
    (Store.mk (some v1)).store v2 = .error ⟨"Store occupied"⟩ ∧
    (Store.mk (none : Option A)).val = .error ⟨"Store empty"⟩ :=
  ⟨rfl, rfl, rfl⟩

/-- Witness for C6 at `v1 = 1`, `v2 = 2` over `Int`. -/
theorem store_single_write_and_empty_read_witness :
    ((1 : Int) ≠ 2) ∧
    ((Store.mk (none : Option Int)).store 1 = .ok ⟨some 1⟩ ∧
     (Store.mk (some (1 : Int))).store 2 = .error ⟨"Store occupied"⟩ ∧
     (Store.mk (none : Option Int)).val = .error ⟨"Store empty"⟩) :=
  ⟨by decide, store_single_write_and_empty_read 1 2 (by decide)⟩

/-- Claim C10: a plain `Store` rejects a second `store` even of the very same
(or an equal) value: after `store v`, both `store v` and `store w` fail with
the occupied error, unlike `EqualStore`. -/
theorem store_rejects_equal_restore {A : Type} (v w : A) :
    (Store.mk (none : Option A)).store v = .ok ⟨some v⟩ ∧
    (Store.mk (some v)).store v = .error ⟨"Store occupied"⟩ ∧
    (Store.mk (some v)).store w = .error ⟨"Store occupied"⟩ :=
  ⟨rfl, rfl, rfl⟩

/-- Claim C7: `merge_linear_aux` over the four occupancy combinations of the
two accessors' stores: `(true, v)` when only the first holds `v`,
`(false, v)` when only the second holds `v`, the neither-produced error when
both are empty, and the both-produced error when both are occupied. -/
theorem merge_linear_aux_cases {A : Type} (v w : A) :
    merge_linear_aux ((Store.mk (none : Option A)).val) ((Store.mk (none : Option A)).val) =
      .error ⟨"neither store occupied"⟩ ∧
    merge_linear_aux ((Store.mk (some v)).val) ((Store.mk (none : Option A)).val) =
      .ok (true, v) ∧
    merge_linear_aux ((Store.mk (none : Option A)).val) ((Store.mk (some w)).val) =
      .ok (false, w) ∧
    merge_linear_aux ((Store.mk (some v)).val) ((Store.mk (some w)).val) =
      .error ⟨"both stores occupied"⟩ :=
  ⟨rfl, rfl, rfl, rfl⟩

/-! ## WrappedFun (source lines 137-233)

The base function `f` and the transformation generators are Python
objects; they are modelled as identifiers (`Nat`) whose semantics live in
an environment `TEnv`.  A deterministic two-phase generator is fully
described by: its first-yield behaviour `genPre` (static args, dynamic
args, kwargs ↦ transformed `(args, kwargs)` or an exception) and its
second-yield behaviour `genPost` (the same instantiation inputs plus the
answer sent back ↦ transformed answer, with `some side` when the
generator yields an `(answer, aux)` pair, or an exception).  `in_type`
and `debug_info` are consumed as opaque values (`Option Nat`). -/

structure TEnv (V A E : Type) where
  genPre : Nat → List V → List V → Dict V → Except E (List V × Dict V)
  genPost : Nat → List V → List V → Dict V → V → Except E (V × Option A)
  base : Nat → List V → Dict V → Except E V

structure WrappedFun (V A : Type) where
  f : Nat
  transforms : List (Nat × List V)
  stores : List (Option (AuxStore A))
  params : Dict V
  in_type : Option Nat
  debug_info : Option Nat
deriving DecidableEq, Repr

/-- `WrappedFun.wrap` (source lines 165-168): prepend one
`(gen, gen_static_args)` entry and one store, reset `in_type` and
`debug_info` to `None`. -/
def WrappedFun.wrap {V A : Type} (w : WrappedFun V A) (gen : Nat)
    (gen_static_args : List V) (out_store : Option (AuxStore A)) : WrappedFun V A :=
  ⟨w.f, (gen, gen_static_args) :: w.transforms, out_store :: w.stores,
    w.params, none, none⟩

/-- `WrappedFun.__eq__` (source lines 230-233): structural equality over
`(f, transforms, params, in_type, debug_info)`; `stores` not compared. -/
def wrappedEq {V A : Type} [DecidableEq V] (w1 w2 : WrappedFun V A) : Bool :=
  decide (w1.f = w2.f) && decide (w1.transforms = w2.transforms) &&
    decide (w1.params = w2.params) && decide (w1.in_type = w2.in_type) &&
    decide (w1.debug_info = w2.debug_info)

/-- `WrappedFun.__hash__` (source lines 226-228): hash of the tuple
`(f, transforms, params, in_type, debug_info)`; `stores` not hashed. -/
def wrappedHash {V A : Type} [Hashable V] (w : WrappedFun V A) : UInt64 :=
  hash (w.f, w.transforms, w.params, w.in_type, w.debug_info)

/-! ## call_wrapped (source lines 176-217) -/

/-- A suspended generator on the local execution stack: the entry's
position `idx` in `transforms`/`stores`, the generator id, the static and
dynamic arguments it was instantiated with (which determine its
continuation), and its paired `out_store`. -/
structure Suspended (V A : Type) where
  idx : Nat
  genId : Nat
  staticArgs : List V
  args : List V
  kwargs : Dict V
  outStore : Option (AuxStore A)
deriving DecidableEq, Repr

/-- Observable cleanup events: `closed i` records that the suspended
generator of entry `i` was closed (`gen.close()`). -/
inductive Event where
  | closed (idx : Nat)
deriving DecidableEq, Repr

/-- Close every generator remaining on the local stack in pop order (the
head of the list is the most recently pushed). -/
def closeAll {V A : Type} (stk : List (Suspended V A)) : List Event :=
  stk.map (fun s => .closed s.idx)

inductive CallErr (E : Type) where
  | user (e : E)
  | store (e : StoreException)
  | unpack
deriving DecidableEq, Repr

instance {ε α : Type} [DecidableEq ε] [DecidableEq α] : DecidableEq (Except ε α) :=
  fun x y =>
    match x, y with
    | .error a, .error b =>
      if h : a = b then isTrue (congrArg Except.error h)
      else isFalse (fun hc => h (by injection hc))
    | .ok a, .ok b =>
      if h : a = b then isTrue (congrArg Except.ok h)
      else isFalse (fun hc => h (by injection hc))
    | .error _, .ok _ => isFalse (fun hc => by injection hc)
    | .ok _, .error _ => isFalse (fun hc => by injection hc)

/-- Outcome of one `call_wrapped` invocation: the returned value or the
propagated exception, the trace of synchronous `close` events emitted
while handling an exception, and the final state of the stack's stores. -/
structure CallOut (V A E : Type) where
  result : Except (CallErr E) V
  closes : List Event
  stores : List (Option (AuxStore A))
deriving DecidableEq, Repr

/-- The apply phase (source lines 182-187): iterate
`zip(transforms, stores)` in stored order, run each generator to its
first yield, thread the rewritten `(args, kwargs)`, and push the
suspended generator (paired with its store) onto the local stack.  On an
exception the error is returned together with the generators still
suspended on the local stack at that moment (which the source does not
close). -/
def applyPhase {V A E : Type} (env : TEnv V A E) :
    List ((Nat × List V) × Option (AuxStore A)) → Nat → List V → Dict V →
    List (Suspended V A) →
    Except (E × List (Suspended V A)) (List V × Dict V × List (Suspended V A))
  | [], _, args, kw, stk => .ok (args, kw, stk)
  | ((g, sargs), st) :: rest, i, args, kw, stk =>
    match env.genPre g sargs args kw with
    | .error e => .error (e, stk)
    | .ok (args2, kw2) =>
      applyPhase env rest (i + 1) args2 kw2 (⟨i, g, sargs, args, kw, st⟩ :: stk)

/-- The unwind phase (source lines 202-217): pop the local stack, send the
current answer into each suspended generator.  An exception raised by
`gen.send` closes the generators still on the stack and re-raises; when
the entry has an `out_store`, the yielded answer is unpacked as
`(ans, side)` and `side` is stored — failures of the unpack or of the
store happen outside the `try` and therefore propagate without closing
anything. -/
def unwind {V A E : Type} [DecidableEq A] (env : TEnv V A E) :
    List (Option (AuxStore A)) → List (Suspended V A) → V → CallOut V A E
  | stores, [], ans => ⟨.ok ans, [], stores⟩
  | stores, s :: rest, ans =>
    match env.genPost s.genId s.staticArgs s.args s.kwargs ans with
    | .error e => ⟨.error (.user e), closeAll rest, stores⟩
    | .ok (ans2, aux) =>
      match s.outStore with
      | none => unwind env stores rest ans2
      | some st =>
        match aux with
        | none => ⟨.error .unpack, [], stores⟩
        | some side =>
          match st.store side with
          | .error se => ⟨.error (.store se), [], stores⟩
          | .ok st2 => unwind env (stores.set s.idx (some st2)) rest ans2

/-- `WrappedFun.call_wrapped` (source lines 176-217): apply phase over
`zip(transforms, stores)`, then the base call
`f(*args, **dict(params, **kwargs))` — whose exceptions close every
still-suspended generator in pop order — then the unwind phase.  An
exception during the apply phase propagates with no close events. -/
def call_wrapped {V A E : Type} [DecidableEq A] (env : TEnv V A E)
    (w : WrappedFun V A) (args : List V) (kw : Dict V) : CallOut V A E :=
  match applyPhase env (w.transforms.zip w.stores) 0 args kw [] with
  | .error (e, _) => ⟨.error (.user e), [], w.stores⟩
  | .ok (args2, kw2, stk) =>
    match env.base w.f args2 (pyDictMerge w.params kw2) with
    | .error e => ⟨.error (.user e), closeAll stk, w.stores⟩
    | .ok ans => unwind env w.stores stk ans

/-- Claim C9: `wrap` on a stack whose `in_type` or `debug_info` is set
produces a stack with both fields unset, the same base function and
params, and `transforms`/`stores` grown by one prepended entry. -/
theorem wrap_discards_annotations {V A : Type} (w : WrappedFun V A) (g : Nat)
    (sargs : List V) (st : Option (AuxStore A))
    (hset : w.in_type ≠ none ∨ w.debug_info ≠ none) :
    (w.wrap g sargs st).in_type = none ∧
    (w.wrap g sargs st).debug_info = none ∧
    (w.wrap g sargs st).f = w.f ∧
    (w.wrap g sargs st).params = w.params ∧
    (w.wrap g sargs st).transforms = (g, sargs) :: w.transforms ∧
    (w.wrap g sargs st).stores = st :: w.stores ∧
    (w.wrap g sargs st).transforms.length = w.transforms.length + 1 ∧
    (w.wrap g sargs st).stores.length = w.stores.length + 1 := by
  refine ⟨rfl, rfl, rfl, rfl, rfl, rfl, ?_, ?_⟩ <;> simp [WrappedFun.wrap]

/-- A concrete annotated stack used by the C9 witness. -/
def wC9 : WrappedFun Int Int :=
  ⟨0, [], [], [], some 3, some 4⟩

/-- Witness for C9 on a stack with both annotation fields set. -/
theorem wrap_discards_annotations_witness :
    (wC9.in_type ≠ none ∨ wC9.debug_info ≠ none) ∧
    ((wC9.wrap 5 [] none).in_type = none ∧
     (wC9.wrap 5 [] none).debug_info = none ∧
     (wC9.wrap 5 [] none).f = wC9.f ∧
     (wC9.wrap 5 [] none).params = wC9.params ∧
     (wC9.wrap 5 [] none).transforms = (5, []) :: wC9.transforms ∧
     (wC9.wrap 5 [] none).stores = none :: wC9.stores ∧
     (wC9.wrap 5 [] none).transforms.length = wC9.transforms.length + 1 ∧
     (wC9.wrap 5 [] none).stores.length = wC9.stores.length + 1) :=
  ⟨Or.inl (by decide), wrap_discards_annotations wC9 5 [] none (Or.inl (by decide))⟩

/-- Claim C8: equality and hash of a `WrappedFun` are computed over
`(f, transforms, params, in_type, debug_info)` and never over `stores`:
any two stacks agreeing on those five components compare equal and hash
equal, with no condition whatsoever on their stores. -/
theorem wrappedEq_hash_ignore_stores {V A : Type} [DecidableEq V] [Hashable V]
    (w1 w2 : WrappedFun V A)
    (hf : w1.f = w2.f) (ht : w1.transforms = w2.transforms)
    (hp : w1.params = w2.params) (hi : w1.in_type = w2.in_type)
    (hd : w1.debug_info = w2.debug_info) :
    wrappedEq w1 w2 = true ∧ wrappedHash w1 = wrappedHash w2 := by
  constructor
  · simp [wrappedEq, hf, ht, hp, hi, hd]
  · simp [wrappedHash, hf, ht, hp, hi, hd]

/-- Two stacks agreeing on the five identity components but with visibly
different slots (one occupied, one absent), for the C8 witness. -/
def wC8a : WrappedFun Int Int :=
  ⟨1, [(2, [3])], [some (.plain ⟨some 9⟩)], [("p", 1)], some 7, some 8⟩

def wC8b : WrappedFun Int Int :=
  ⟨1, [(2, [3])], [none], [("p", 1)], some 7, some 8⟩

/-- Witness for C8: the two stacks differ in their slots yet compare and
hash equal. -/
theorem wrappedEq_hash_ignore_stores_witness :
    wC8a.stores ≠ wC8b.stores ∧
    (wrappedEq wC8a wC8b = true ∧ wrappedHash wC8a = wrappedHash wC8b) :=
  ⟨by decide, wrappedEq_hash_ignore_stores wC8a wC8b rfl rfl rfl rfl rfl⟩

/-! ## Dict merge lemmas -/

lemma dictLookup_dictInsert_self {V : Type} (d : Dict V) (k : String) (v : V) :
    dictLookup (dictInsert d k v) k = some v := by
  induction d with
  | nil => simp [dictInsert, dictLookup]
  | cons kv rest ih =>
    obtain ⟨k0, v0⟩ := kv
    by_cases h : k0 = k <;> simp [dictInsert, dictLookup, h, ih]

lemma dictLookup_dictInsert_ne {V : Type} (d : Dict V) (k0 k : String) (v : V)
    (h : k0 ≠ k) : dictLookup (dictInsert d k0 v) k = dictLookup d k := by
  induction d with
  | nil => simp [dictInsert, dictLookup, h]
  | cons kv rest ih =>
    obtain ⟨k1, v1⟩ := kv
    by_cases h1 : k1 = k0
    · subst h1
      simp [dictInsert, dictLookup, h]
    · by_cases h2 : k1 = k <;> simp [dictInsert, dictLookup, h1, h2, ih, Ne.symm h]

lemma dictLookup_pyDictMerge_notMem {V : Type} (upd : Dict V) :
    ∀ (p : Dict V) (k : String), k ∉ upd.map Prod.fst →
      dictLookup (pyDictMerge p upd) k = dictLookup p k := by
  induction upd with
  | nil => intro p k _; rfl
  | cons kv rest ih =>
    intro p k hk
    obtain ⟨k0, v0⟩ := kv
    simp only [List.map_cons, List.mem_cons, not_or] at hk
    have h1 : pyDictMerge p ((k0, v0) :: rest) = pyDictMerge (dictInsert p k0 v0) rest := rfl
    rw [h1, ih _ _ hk.2, dictLookup_dictInsert_ne _ _ _ _ (fun h => hk.1 h.symm)]

lemma dictLookup_pyDictMerge_mem {V : Type} (upd : Dict V) :
    ∀ (p : Dict V) (k : String) (v : V), (upd.map Prod.fst).Nodup →
      dictLookup upd k = some v → dictLookup (pyDictMerge p upd) k = some v := by
  induction upd with
  | nil => intro p k v _ h; simp [dictLookup] at h
  | cons kv rest ih =>
    intro p k v hnd hlk
    obtain ⟨k0, v0⟩ := kv
    simp only [List.map_cons, List.nodup_cons] at hnd
    have h1 : pyDictMerge p ((k0, v0) :: rest) = pyDictMerge (dictInsert p k0 v0) rest := rfl
    rw [h1]
    by_cases h : k0 = k
    · subst h
      have hv : v0 = v := by simpa [dictLookup] using hlk
      subst hv
      rw [dictLookup_pyDictMerge_notMem rest _ _ hnd.1, dictLookup_dictInsert_self]
    · have hlk2 : dictLookup rest k = some v := by simpa [dictLookup, h] using hlk
      exact ih _ _ _ hnd.2 hlk2

/-- Claim C2: the base computation is invoked with keyword arguments
`dict(params, **kwargs)` — the stack's static params merged under the
(transformed) caller-supplied kwargs — and on any key collision the
caller-supplied binding takes precedence; the merge itself is total, so no
error arises from a collision and the call proceeds straight to the base
computation.  The first conjunct exhibits the invocation: once the apply
phase has produced `(args2, kw2)`, `call_wrapped` continues exactly as the
base call on `pyDictMerge w.params kw2`.  The second conjunct is the
precedence law for every key bound in the (duplicate-free) kwargs. -/
theorem base_call_merges_params_under_kwargs {V A E : Type} [DecidableEq A]
    (env : TEnv V A E) (w : WrappedFun V A) (args : List V) (kw : Dict V)
    (args2 : List V) (kw2 : Dict V) (stk : List (Suspended V A))
    (h : applyPhase env (w.transforms.zip w.stores) 0 args kw [] = .ok (args2, kw2, stk)) :
    call_wrapped env w args kw =
      (match env.base w.f args2 (pyDictMerge w.params kw2) with
       | .error e => CallOut.mk (.error (.user e)) (closeAll stk) w.stores
       | .ok ans => unwind env w.stores stk ans) ∧
    ∀ (k : String) (v : V), (kw2.map Prod.fst).Nodup → dictLookup kw2 k = some v →
      dictLookup (pyDictMerge w.params kw2) k = some v := by
  constructor
  · unfold call_wrapped
    rw [h]
  · intro k v hnd hlk
    exact dictLookup_pyDictMerge_mem kw2 _ _ _ hnd hlk

/-- Environment for the C2 witness: the base computation reads back the
keyword argument bound to `"a"`. -/
def envC2 : TEnv Int Int Nat :=
  ⟨fun _ _ args kw => .ok (args, kw),
   fun _ _ _ _ v => .ok (v, none),
   fun _ _ kw => match dictLookup kw "a" with
     | some v => .ok v
     | none => .error 0⟩

/-- Stack for the C2 witness: static params bind `"a" := 1` and
`"b" := 2`, so the call with caller kwargs `"a" := 10` collides on `"a"`. -/
def wC2 : WrappedFun Int Int :=
  ⟨0, [], [], [("a", 1), ("b", 2)], none, none⟩

/-- Witness for C2: on a genuine key collision the merged dict binds the
caller's value, no error is raised, and the base computation observes the
caller's value `10`. -/
theorem base_call_merges_params_under_kwargs_witness :
    (call_wrapped envC2 wC2 [] [("a", 10)] =
      (match envC2.base wC2.f [] (pyDictMerge wC2.params [("a", 10)]) with
       | .error e =>
         CallOut.mk (.error (.user e)) (closeAll ([] : List (Suspended Int Int))) wC2.stores
       | .ok ans => unwind envC2 wC2.stores [] ans) ∧
     ∀ (k : String) (v : Int), ([(("a", 10) : String × Int)].map Prod.fst).Nodup →
       dictLookup [("a", 10)] k = some v →
       dictLookup (pyDictMerge wC2.params [("a", 10)]) k = some v) ∧
    (call_wrapped envC2 wC2 [] [("a", 10)]).result = .ok 10 :=
  ⟨base_call_merges_params_under_kwargs envC2 wC2 [] [("a", 10)] [] [("a", 10)] [] rfl,
   by decide⟩

/-! ## Claim C4: cleanup on failure -/

/-- Claim C4 (amended): the synchronous-close discipline covers exceptions
propagating out of the base-computation call and out of resuming a
transformation during the unwind phase — in both cases every generator
still suspended on the local stack is closed in pop order (most recently
pushed first) before the exception is re-raised.  It does not cover the
apply phase (see the counterexample). -/
theorem cleanup_on_failure_scope {V A E : Type} [DecidableEq A]
    (env : TEnv V A E) (w : WrappedFun V A) (args : List V) (kw : Dict V)
    (args2 : List V) (kw2 : Dict V) (stk : List (Suspended V A)) (e : E) :
    (applyPhase env (w.transforms.zip w.stores) 0 args kw [] = .ok (args2, kw2, stk) →
      env.base w.f args2 (pyDictMerge w.params kw2) = .error e →
      call_wrapped env w args kw = ⟨.error (.user e), closeAll stk, w.stores⟩) ∧
    (∀ (stores : List (Option (AuxStore A))) (s : Suspended V A)
       (rest : List (Suspended V A)) (ans : V),
      env.genPost s.genId s.staticArgs s.args s.kwargs ans = .error e →
      unwind env stores (s :: rest) ans = ⟨.error (.user e), closeAll rest, stores⟩) := by
  constructor
  · intro h1 h2
    simp only [call_wrapped, h1, h2]
  · intro stores s rest ans h
    simp only [unwind, h]

/-- Environment whose base computation always raises, for the C4 witness. -/
def envC4base : TEnv Int Int Nat :=
  ⟨fun _ _ args kw => .ok (args, kw),
   fun _ _ _ _ v => .ok (v, none),
   fun _ _ _ => .error 5⟩

/-- One-transformation stack for the C4 witness. -/
def wC4 : WrappedFun Int Int :=
  ⟨0, [(0, [])], [none], [], none, none⟩

/-- Environment whose generators raise when resumed, for the C4 witness. -/
def envC4post : TEnv Int Int Nat :=
  ⟨fun _ _ args kw => .ok (args, kw),
   fun _ _ _ _ _ => .error 9,
   fun _ _ _ => .ok 0⟩

/-- Witness for the amended C4: a base-call failure closes the one
suspended generator, and an unwind failure closes exactly the generators
below the failing one. -/
theorem cleanup_on_failure_scope_witness :
    call_wrapped envC4base wC4 [] [] = ⟨.error (.user 5), [Event.closed 0], [none]⟩ ∧
    unwind envC4post ([] : List (Option (AuxStore Int)))
        [⟨0, 0, [], [], [], none⟩, ⟨1, 1, [], [], [], none⟩] 0 =
      ⟨.error (.user 9), [Event.closed 1], []⟩ :=
  ⟨(cleanup_on_failure_scope envC4base wC4 [] [] [] [] [⟨0, 0, [], [], [], none⟩] 5).left
      rfl rfl,
   (cleanup_on_failure_scope envC4post wC4 [] [] [] [] [] 9).right
      [] ⟨0, 0, [], [], [], none⟩ [⟨1, 1, [], [], [], none⟩] 0 rfl⟩

/-- Environment for the C4 counterexample: generator `0` passes arguments
through, generator `1` raises at its first suspension point (apply
phase). -/
def envC4bad : TEnv Int Int Nat :=
  ⟨fun g _ args kw => if g = 1 then .error 7 else .ok (args, kw),
   fun _ _ _ _ v => .ok (v, none),
   fun _ _ _ => .ok 0⟩

/-- Stack for the C4 counterexample: generator `0` is applied first (and
suspends), then generator `1` raises during the apply phase. -/
def wC4bad : WrappedFun Int Int :=
  ⟨0, [(0, []), (1, [])], [none, none], [], none, none⟩

/-- Counterexample to C4 as stated: when the exception propagates out of a
transformation's apply phase, the generator of entry `0` is still
suspended on the local execution stack (first conjunct), yet the call
re-raises with an empty close trace (second conjunct) — no suspended
transformation is synchronously closed. -/
theorem cleanup_on_failure_counterexample :
    applyPhase envC4bad (wC4bad.transforms.zip wC4bad.stores) 0 [] [] [] =
      .error (7, [⟨0, 0, [], [], [], none⟩]) ∧
    call_wrapped envC4bad wC4bad [] [] = ⟨.error (.user 7), [], [none, none]⟩ := by
  exact ⟨rfl, rfl⟩

/-! ## Claim C1: composition law -/

/-- The result-rewriting continuation captured by a suspended generator:
its second-yield behaviour at the inputs it was instantiated with. -/
def toPost {V A E : Type} (env : TEnv V A E) (s : Suspended V A) :
    V → Except E (V × Option A) :=
  env.genPost s.genId s.staticArgs s.args s.kwargs

/-- Apply a list of result-rewriting phases in list order, keeping the
main result component of each. -/
def postFold {V A E : Type} : List (V → Except E (V × Option A)) → V → Except E V
  | [], ans => .ok ans
  | p :: rest, ans =>
    match p ans with
    | .error e => .error e
    | .ok (r, _) => postFold rest r

/-- Modelled from the claim's words, to be compared against
`call_wrapped`: apply the argument-rewriting phases of the entries in
stored order (last wrapped, i.e. `Tn`, first), call the base function on
the rewritten arguments (with the static params merged under the
rewritten kwargs), then apply the result-rewriting phases in the reverse
order (`T1` first — the accumulator prepends, so it ends up ordered
first-wrapped first). -/
def manualCompose {V A E : Type} (env : TEnv V A E) (f : Nat) (params : Dict V) :
    List (Nat × List V) → List V → Dict V →
    List (V → Except E (V × Option A)) → Except E V
  | [], args, kw, posts =>
    match env.base f args (pyDictMerge params kw) with
    | .error e => .error e
    | .ok ans => postFold posts ans
  | (g, sargs) :: rest, args, kw, posts =>
    match env.genPre g sargs args kw with
    | .error e => .error e
    | .ok (args2, kw2) =>
      manualCompose env f params rest args2 kw2 (env.genPost g sargs args kw :: posts)

def mapUserErr {V E : Type} : Except E V → Except (CallErr E) V
  | .error e => .error (.user e)
  | .ok v => .ok v

/-- A suspended generator is consistent when its paired store (if any) is
empty and its continuation, whenever it succeeds, yields an
`(answer, aux)` pair (so the unpack and the store in the unwind loop
succeed). -/
def ConsistentSusp {V A E : Type} (env : TEnv V A E) (s : Suspended V A) : Prop :=
  ∀ st, s.outStore = some st →
    st.isEmpty = true ∧
    ∀ v r aux, env.genPost s.genId s.staticArgs s.args s.kwargs v = .ok (r, aux) →
      aux ≠ none

/-- Same consistency condition for a not-yet-applied
`(entry, out_store)` pair. -/
def ConsistentPair {V A E : Type} (env : TEnv V A E)
    (p : (Nat × List V) × Option (AuxStore A)) : Prop :=
  ∀ st, p.2 = some st →
    st.isEmpty = true ∧
    ∀ a k v r aux, env.genPost p.1.1 p.1.2 a k v = .ok (r, aux) → aux ≠ none

lemma AuxStore.store_of_isEmpty {A : Type} [DecidableEq A] (st : AuxStore A) (v : A)
    (h : st.isEmpty = true) : ∃ st2, st.store v = .ok st2 ∧ st2.val = .ok v := by
  cases st with
  | plain s =>
    obtain ⟨o⟩ := s
    cases o with
    | none => exact ⟨.plain ⟨some v⟩, rfl, rfl⟩
    | some x => simp [AuxStore.isEmpty] at h
  | equal s =>
    obtain ⟨⟨o⟩⟩ := s
    cases o with
    | none => exact ⟨.equal ⟨⟨some v⟩⟩, rfl, rfl⟩
    | some x => simp [AuxStore.isEmpty] at h

/-- The unwind phase computes exactly the fold of the captured
result-rewriting phases, for any consistent local stack; in particular
the returned value is independent of the threaded store states. -/
lemma unwind_result_eq {V A E : Type} [DecidableEq A] (env : TEnv V A E) :
    ∀ (stk : List (Suspended V A)) (stores : List (Option (AuxStore A))) (ans : V),
      (∀ s ∈ stk, ConsistentSusp env s) →
      (unwind env stores stk ans).result =
        mapUserErr (postFold (stk.map (toPost env)) ans) := by
  intro stk
  induction stk with
  | nil => intro stores ans _; rfl
  | cons s rest ih =>
    intro stores ans h
    have hs : ConsistentSusp env s := h s (List.mem_cons_self s rest)
    have hrest : ∀ x ∈ rest, ConsistentSusp env x :=
      fun x hx => h x (List.mem_cons_of_mem s hx)
    cases hp : env.genPost s.genId s.staticArgs s.args s.kwargs ans with
    | error e => simp [unwind, hp, postFold, toPost, mapUserErr]
    | ok pr =>
      obtain ⟨ans2, aux⟩ := pr
      cases hst : s.outStore with
      | none =>
        simp only [unwind, hp, hst, List.map_cons, postFold, toPost]
        exact ih stores ans2 hrest
      | some st =>
        obtain ⟨hempty, hcons⟩ := hs st hst
        have haux : aux ≠ none := hcons ans ans2 aux hp
        obtain ⟨side, rfl⟩ : ∃ x, aux = some x := by
          cases aux with
          | none => exact absurd rfl haux
          | some x => exact ⟨x, rfl⟩
        obtain ⟨st2, hst2, _⟩ := AuxStore.store_of_isEmpty st side hempty
        simp only [unwind, hp, hst, hst2, List.map_cons, postFold, toPost]
        exact ih _ ans2 hrest

/-- `call_wrapped` generalized over a partially consumed entry list and an
already-built local stack — the source's loop state. -/
def callFrom {V A E : Type} [DecidableEq A] (env : TEnv V A E) (f : Nat)
    (params : Dict V) (stores0 : List (Option (AuxStore A)))
    (pairs : List ((Nat × List V) × Option (AuxStore A))) (i : Nat)
    (args : List V) (kw : Dict V) (stk : List (Suspended V A)) : CallOut V A E :=
  match applyPhase env pairs i args kw stk with
  | .error (e, _) => ⟨.error (.user e), [], stores0⟩
  | .ok (args2, kw2, stk2) =>
    match env.base f args2 (pyDictMerge params kw2) with
    | .error e => ⟨.error (.user e), closeAll stk2, stores0⟩
    | .ok ans => unwind env stores0 stk2 ans

lemma call_wrapped_eq_callFrom {V A E : Type} [DecidableEq A] (env : TEnv V A E)
    (w : WrappedFun V A) (args : List V) (kw : Dict V) :
    call_wrapped env w args kw =
      callFrom env w.f w.params w.stores (w.transforms.zip w.stores) 0 args kw [] := rfl

lemma callFrom_eq_manual {V A E : Type} [DecidableEq A] (env : TEnv V A E)
    (f : Nat) (params : Dict V) (stores0 : List (Option (AuxStore A))) :
    ∀ (pairs : List ((Nat × List V) × Option (AuxStore A))) (i : Nat)
      (args : List V) (kw : Dict V) (stk : List (Suspended V A)),
      (∀ s ∈ stk, ConsistentSusp env s) →
      (∀ p ∈ pairs, ConsistentPair env p) →
      (callFrom env f params stores0 pairs i args kw stk).result =
        mapUserErr (manualCompose env f params (pairs.map Prod.fst) args kw
          (stk.map (toPost env))) := by
  intro pairs
  induction pairs with
  | nil =>
    intro i args kw stk hstk _
    cases hb : env.base f args (pyDictMerge params kw) with
    | error e => simp [callFrom, applyPhase, manualCompose, hb, mapUserErr]
    | ok ans =>
      simp only [callFrom, applyPhase, List.map_nil, manualCompose, hb]
      exact unwind_result_eq env stk stores0 ans hstk
  | cons p rest ih =>
    intro i args kw stk hstk hpairs
    obtain ⟨⟨g, sargs⟩, st⟩ := p
    have hp : ConsistentPair env ((g, sargs), st) := hpairs _ (List.mem_cons_self _ _)
    have hrest : ∀ q ∈ rest, ConsistentPair env q :=
      fun q hq => hpairs q (List.mem_cons_of_mem _ hq)
    cases hpre : env.genPre g sargs args kw with
    | error e => simp [callFrom, applyPhase, manualCompose, hpre, mapUserErr]
    | ok res =>
      obtain ⟨args2, kw2⟩ := res
      have hstep : callFrom env f params stores0 (((g, sargs), st) :: rest) i args kw stk =
          callFrom env f params stores0 rest (i + 1) args2 kw2
            (⟨i, g, sargs, args, kw, st⟩ :: stk) := by
        simp [callFrom, applyPhase, hpre]
      rw [hstep]
      have hsusp : ConsistentSusp env ⟨i, g, sargs, args, kw, st⟩ := by
        intro st2 hst2
        exact ⟨(hp st2 hst2).1, fun v r aux hh => (hp st2 hst2).2 args kw v r aux hh⟩
      have hstk2 : ∀ s ∈ (⟨i, g, sargs, args, kw, st⟩ :: stk : List (Suspended V A)),
          ConsistentSusp env s := by
        intro s hsm
        rcases List.mem_cons.mp hsm with hh | hh
        · subst hh; exact hsusp
        · exact hstk s hh
      rw [ih (i + 1) args2 kw2 _ hstk2 hrest]
      simp [manualCompose, hpre, toPost]

/-- Claim C1: for every base computation and deterministic transformation
stack (entries consistent with their fresh, empty auxiliary stores),
`call_wrapped` returns the same result as the explicit manual
composition from the claim: argument-rewriting phases in stored order
(last wrapped first), then the base call, then result-rewriting phases in
wrap order (first wrapped first). -/
theorem call_wrapped_eq_manual_composition {V A E : Type} [DecidableEq A]
    (env : TEnv V A E) (w : WrappedFun V A) (args : List V) (kw : Dict V)
    (hlen : w.transforms.length = w.stores.length)
    (hcons : ∀ p ∈ w.transforms.zip w.stores, ConsistentPair env p) :
    (call_wrapped env w args kw).result =
      mapUserErr (manualCompose env w.f w.params w.transforms args kw []) := by
  have h := callFrom_eq_manual env w.f w.params w.stores (w.transforms.zip w.stores)
    0 args kw [] (by intro s hs; simp at hs) hcons
  have hz : (w.transforms.zip w.stores).map Prod.fst = w.transforms :=
    List.map_fst_zip _ _ (le_of_eq hlen)
  rw [call_wrapped_eq_callFrom, h, hz]
  rfl

/-- Environment for the C1 witness, the spec's concrete scenario:
generator `0` doubles the positional arguments (no auxiliary output used),
generator `1` negates the result and emits the pre-negation result as
auxiliary output, and the base computation is `x + 1`. -/
def envC1 : TEnv Int Int Nat :=
  ⟨fun g _ args kw => if g = 0 then .ok (args.map (fun x => 2 * x), kw) else .ok (args, kw),
   fun g _ _ _ v => if g = 1 then .ok (-v, some v) else .ok (v, some v),
   fun _ args _ =>
     match args with
     | [x] => .ok (x + 1)
     | _ => .error 3⟩

/-- The C1 witness stack: base `f`, wrapped first by the doubling
transformation (entry `(0, [])`, no store) and then by the negating
transformation (entry `(1, [])`, fresh plain store), so the stored entry
order is `[(1, []), (0, [])]`. -/
def wC1 : WrappedFun Int Int :=
  ⟨0, [(1, []), (0, [])], [some (.plain ⟨none⟩), none], [], none, none⟩

/-- Witness for C1 on the spec's concrete scenario, where both sides
return `-7` on input `3`. -/
theorem call_wrapped_eq_manual_composition_witness :
    (wC1.transforms.length = wC1.stores.length ∧
     ∀ p ∈ wC1.transforms.zip wC1.stores, ConsistentPair envC1 p) ∧
    (call_wrapped envC1 wC1 [3] []).result =
      mapUserErr (manualCompose envC1 wC1.f wC1.params wC1.transforms [3] [] []) ∧
    (call_wrapped envC1 wC1 [3] []).result = .ok (-7) := by
  have hcons : ∀ p ∈ wC1.transforms.zip wC1.stores, ConsistentPair envC1 p := by
    intro p hp
    have hz : wC1.transforms.zip wC1.stores =
        [((1, []), some (AuxStore.plain ⟨none⟩)), ((0, []), (none : Option (AuxStore Int)))] := rfl
    rw [hz] at hp
    rcases List.mem_cons.mp hp with hh | hh
    · subst hh
      intro st hst
      injection hst with hst
      subst hst
      refine ⟨rfl, ?_⟩
      intro a k v r aux hpost
      simp [envC1] at hpost
      rw [← hpost.2]
      simp
    · rcases List.mem_cons.mp hh with hh2 | hh2
      · subst hh2
        intro st hst
        exact absurd hst (by simp)
      · simp at hh2
  refine ⟨⟨rfl, hcons⟩, ?_, by decide⟩
  exact call_wrapped_eq_manual_composition envC1 wC1 [3] [] rfl hcons

/-! ## Claim C3: memoization (source lines 320-360, populate_stores 170-174)

`populate_stores` walks `zip(self.stores, stores)` and, for every
non-`None` own store, stores the other store's held value (reading an
empty store or storing into an occupied plain store raises).  The
functional model returns the updated own-store list; on an error the
partial updates are not observable here (no claim touches that path). -/

def populate_stores {A : Type} [DecidableEq A] :
    List (Option (AuxStore A)) → List (Option (AuxStore A)) →
    Except StoreException (List (Option (AuxStore A)))
  | [], _ => .ok []
  | x :: xs, [] => .ok (x :: xs)
  | none :: xs, _ :: ys =>
    match populate_stores xs ys with
    | .error e => .error e
    | .ok res => .ok (none :: res)
  | some s :: xs, other :: ys =>
    match other with
    | none => .error ⟨"attribute error"⟩
    | some o =>
      match o.val with
      | .error e => .error e
      | .ok v =>
        match s.store v with
        | .error e => .error e
        | .ok s2 =>
          match populate_stores xs ys with
          | .error e => .error e
          | .ok res => .ok (some s2 :: res)

/-- Shape compatibility between a fresh stack's stores and the recorded
stores of an earlier call: positionally, every own slot that exists is
empty and faces a recorded occupied slot; the recorded list is at least
as long. -/
def slotsCompatible {A : Type} : List (Option (AuxStore A)) → List (Option (AuxStore A)) → Bool
  | [], _ => true
  | _ :: _, [] => false
  | none :: xs, _ :: ys => slotsCompatible xs ys
  | some s :: xs, other :: ys =>
    (s.isEmpty && (match other with | some o => !o.isEmpty | none => false)) &&
      slotsCompatible xs ys

lemma AuxStore.val_of_not_isEmpty {A : Type} (o : AuxStore A) (h : o.isEmpty = false) :
    ∃ v, o.val = .ok v := by
  cases o with
  | plain s =>
    obtain ⟨x⟩ := s
    cases x with
    | none => simp [AuxStore.isEmpty] at h
    | some v => exact ⟨v, rfl⟩
  | equal s =>
    obtain ⟨⟨x⟩⟩ := s
    cases x with
    | none => simp [AuxStore.isEmpty] at h
    | some v => exact ⟨v, rfl⟩

lemma populate_stores_of_compatible {A : Type} [DecidableEq A] :
    ∀ (selfS otherS : List (Option (AuxStore A))),
      slotsCompatible selfS otherS = true →
      ∃ res, populate_stores selfS otherS = .ok res ∧
        ∀ i s o v, selfS.get? i = some (some s) → otherS.get? i = some (some o) →
          o.val = .ok v → ∃ s2, res.get? i = some (some s2) ∧ s2.val = .ok v := by
  intro selfS
  induction selfS with
  | nil =>
    intro otherS _
    refine ⟨[], rfl, ?_⟩
    intro i s o v h1
    simp at h1
  | cons x xs ih =>
    intro otherS hc
    cases otherS with
    | nil =>
      cases x <;> simp [slotsCompatible] at hc
    | cons y ys =>
      cases x with
      | none =>
        have hc2 : slotsCompatible xs ys = true := by simpa [slotsCompatible] using hc
        obtain ⟨res, hres, hprop⟩ := ih ys hc2
        refine ⟨none :: res, ?_, ?_⟩
        · simp [populate_stores, hres]
        · intro i s o v h1 h2 h3
          cases i with
          | zero => simp at h1
          | succ n =>
            simp only [List.get?_cons_succ] at h1 h2 ⊢
            exact hprop n s o v h1 h2 h3
      | some s0 =>
        simp only [slotsCompatible, Bool.and_eq_true] at hc
        obtain ⟨⟨hemp, hother⟩, hc2⟩ := hc
        cases y with
        | none => simp at hother
        | some o0 =>
          have ho0 : o0.isEmpty = false := by simpa using hother
          obtain ⟨v0, hv0⟩ := AuxStore.val_of_not_isEmpty o0 ho0
          obtain ⟨s2, hs2, hs2v⟩ := AuxStore.store_of_isEmpty s0 v0 hemp
          obtain ⟨res, hres, hprop⟩ := ih ys hc2
          refine ⟨some s2 :: res, ?_, ?_⟩
          · simp [populate_stores, hv0, hs2, hres]
          · intro i s o v h1 h2 h3
            cases i with
            | zero =>
              simp only [List.get?_cons_zero, Option.some.injEq] at h1 h2
              subst h1
              subst h2
              rw [hv0] at h3
              injection h3 with h3
              subst h3
              exact ⟨s2, rfl, hs2v⟩
            | succ n =>
              simp only [List.get?_cons_succ] at h1 h2 ⊢
              exact hprop n s o v h1 h2 h3

/-- Cache key (source lines 340-341, default configuration branch): the
tuple of `fun.transforms`, `fun.params`, `fun.in_type` and the extra call
arguments, with the global configuration flags and trace context
collapsed into one opaque epoch value, and the weak outer table keyed by
`fun.f` folded in as the leading component. -/
structure CacheKey (V : Type) where
  f : Nat
  transforms : List (Nat × List V)
  params : Dict V
  in_type : Option Nat
  args : List V
  epoch : Nat
deriving DecidableEq, Repr

def cacheKey {V A : Type} (w : WrappedFun V A) (args : List V) (epoch : Nat) :
    CacheKey V :=
  ⟨w.f, w.transforms, w.params, w.in_type, args, epoch⟩

abbrev Cache (V A : Type) := List (CacheKey V × (V × List (Option (AuxStore A))))

def cacheLookup {V A : Type} [DecidableEq V] :
    Cache V A → CacheKey V → Option (V × List (Option (AuxStore A)))
  | [], _ => none
  | (k, r) :: rest, key => if k = key then some r else cacheLookup rest key

/-- Outcome of one invocation of the memoized function: result, updated
cache, the stack's stores afterwards, and how many times the underlying
`call` ran during this invocation. -/
structure MemoOut (V A Er : Type) where
  result : Except (Er ⊕ StoreException) V
  cache : Cache V A
  funStores : List (Option (AuxStore A))
  callCount : Nat

/-- One invocation of `memoized_fun` (source lines 333-350): on a hit,
replay the recorded stores into the current stack via `populate_stores`
and return the recorded answer without invoking `call`; on a miss, invoke
`call` and record `(ans, fun.stores)` under the key (nothing is recorded
when `call` raises). -/
def memoizedStep {V A Er : Type} [DecidableEq V] [DecidableEq A]
    (call : WrappedFun V A → List V → Except Er V × List (Option (AuxStore A)))
    (epoch : Nat) (cache : Cache V A) (w : WrappedFun V A) (args : List V) :
    MemoOut V A Er :=
  match cacheLookup cache (cacheKey w args epoch) with
  | some (ans, recorded) =>
    match populate_stores w.stores recorded with
    | .error e => ⟨.error (.inr e), cache, w.stores, 0⟩
    | .ok newStores => ⟨.ok ans, cache, newStores, 0⟩
  | none =>
    match call w args with
    | (.error e, stores2) => ⟨.error (.inl e), cache, stores2, 1⟩
    | (.ok ans, stores2) =>
      ⟨.ok ans, (cacheKey w args epoch, (ans, stores2)) :: cache, stores2, 1⟩

/-- Claim C3: starting from a fresh cache, invoking the memoized function
on a stack and then again on a structurally equal stack with equal
arguments (same epoch) runs the underlying `call` exactly once; the
second invocation returns the first result without invoking `call`, and
every `capture_aux` slot of the second stack is populated via `store`
with the value recorded on the first invocation, so its accessor returns
that value. -/
theorem memoized_calls_once_and_replays_stores {V A Er : Type}
    [DecidableEq V] [DecidableEq A]
    (call : WrappedFun V A → List V → Except Er V × List (Option (AuxStore A)))
    (epoch : Nat) (w1 w2 : WrappedFun V A) (args : List V) (ans1 : V)
    (stores1 : List (Option (AuxStore A)))
    (hw : wrappedEq w1 w2 = true)
    (hcall : call w1 args = (.ok ans1, stores1))
    (hcompat : slotsCompatible w2.stores stores1 = true) :
    (memoizedStep call epoch [] w1 args).callCount = 1 ∧
    (memoizedStep call epoch [] w1 args).result = .ok ans1 ∧
    (memoizedStep call epoch (memoizedStep call epoch [] w1 args).cache w2 args).callCount = 0 ∧
    (memoizedStep call epoch (memoizedStep call epoch [] w1 args).cache w2 args).result = .ok ans1 ∧
    ∀ i s o v, w2.stores.get? i = some (some s) → stores1.get? i = some (some o) →
      o.val = .ok v →
      ∃ s2, (memoizedStep call epoch
               (memoizedStep call epoch [] w1 args).cache w2 args).funStores.get? i =
              some (some s2) ∧ s2.val = .ok v := by
  have ho1 : memoizedStep call epoch [] w1 args =
      ⟨.ok ans1, [(cacheKey w1 args epoch, (ans1, stores1))], stores1, 1⟩ := by
    simp [memoizedStep, cacheLookup, hcall]
  have hkey : cacheKey w2 args epoch = cacheKey w1 args epoch := by
    simp only [wrappedEq, Bool.and_eq_true, decide_eq_true_eq] at hw
    obtain ⟨⟨⟨⟨hf, ht⟩, hp⟩, hi⟩, _⟩ := hw
    simp [cacheKey, hf, ht, hp, hi]
  obtain ⟨res, hres, hprop⟩ := populate_stores_of_compatible w2.stores stores1 hcompat
  have ho2 : memoizedStep call epoch (memoizedStep call epoch [] w1 args).cache w2 args =
      ⟨.ok ans1, [(cacheKey w1 args epoch, (ans1, stores1))], res, 0⟩ := by
    rw [ho1]
    simp [memoizedStep, cacheLookup, hkey, hres]
  refine ⟨by rw [ho1], by rw [ho1], by rw [ho2], by rw [ho2], ?_⟩
  intro i s o v h1 h2 h3
  rw [ho2]
  exact hprop i s o v h1 h2 h3

/-- Underlying call for the C3 witness: returns `42` and leaves the
stack's one auxiliary store holding `7`. -/
def callC3 : WrappedFun Int Int → List Int →
    Except Nat Int × List (Option (AuxStore Int)) :=
  fun _ _ => (.ok 42, [some (.plain ⟨some 7⟩)])

/-- Stack for the C3 witness: one transformation with a fresh plain
auxiliary store. -/
def wC3 : WrappedFun Int Int :=
  ⟨0, [(0, [])], [some (.plain ⟨none⟩)], [], none, none⟩

/-- Witness for C3: two invocations on the same stack; the underlying
call runs once, the second invocation replays result `42` and slot value
`7`. -/
theorem memoized_calls_once_and_replays_stores_witness :
    (wrappedEq wC3 wC3 = true ∧
     callC3 wC3 [] = (.ok 42, [some (.plain ⟨some 7⟩)]) ∧
     slotsCompatible wC3.stores [some (.plain ⟨some 7⟩)] = true) ∧
    ((memoizedStep callC3 0 [] wC3 []).callCount = 1 ∧
     (memoizedStep callC3 0 [] wC3 []).result = .ok 42 ∧
     (memoizedStep callC3 0 (memoizedStep callC3 0 [] wC3 []).cache wC3 []).callCount = 0 ∧
     (memoizedStep callC3 0 (memoizedStep callC3 0 [] wC3 []).cache wC3 []).result = .ok 42 ∧
     ∀ i s o v, wC3.stores.get? i = some (some s) →
       ([some (.plain ⟨some 7⟩)] : List (Option (AuxStore Int))).get? i = some (some o) →
       o.val = .ok v →
       ∃ s2, (memoizedStep callC3 0
                (memoizedStep callC3 0 [] wC3 []).cache wC3 []).funStores.get? i =
               some (some s2) ∧ s2.val = .ok v) :=
  ⟨⟨by decide, rfl, rfl⟩,
   memoized_calls_once_and_replays_stores callC3 0 wC3 wC3 [] 42
     [some (.plain ⟨some 7⟩)] (by decide) rfl rfl⟩

end LinearUtil
